import Mathlib

/-!
Shallow embedding of the two build-support scripts of this repository:

* `src/dev/glob_files.py` — expands glob patterns from the command line and
  prints the matching paths newline-joined, with backslashes normalized to
  forward slashes (namespace `GlobFiles`);
* `src/lullaby/tools/generate_entity_schema.py` — copies an input schema file
  to an output path, appends a second file and a `file_identifier` line
  (namespace `GenerateEntitySchema`).

Strings manipulated by the path collector are modelled as `List Char`; the
file system seen by the schema appender is modelled as a partial map from
path strings to file contents.
-/

namespace GlobFiles

/-- Python strings, modelled as their character sequences. -/
abbrev Str := List Char

/-- The newline character, the separator of the join on line 13 of
`src/dev/glob_files.py`. -/
def newline : Char := '\n'

/-- The backslash character. -/
def backslash : Char := '\\'

/-- The forward-slash character. -/
def slash : Char := '/'

/-- The character-level effect of the call `.replace('\\', '/')` on line 13 of
`src/dev/glob_files.py`: the pattern being the single backslash character,
the replacement rewrites each backslash to a forward slash and leaves every
other character unchanged. -/
def slashify (c : Char) : Char := if c = backslash then slash else c

/-- Embedding of `main(argv)` from `src/dev/glob_files.py`.  The underlying
file system is abstracted by the `glob` parameter, the embedding of
`glob.glob`: it returns, for a pattern, the list of matching paths in
file-system enumeration order.  The loop
`for pattern in argv[1:]: files.extend(glob.glob(pattern))` is the fold
below; the function returns the string passed to `print` together with the
return value `0` (the process exit status). -/
def main (glob : Str → List Str) (argv : List Str) : Str × Nat :=
  let files := (argv.drop 1).foldl (fun fs pattern => fs ++ glob pattern) []
  ((List.intercalate [newline] files).map slashify, 0)

/-- What line 13 of the code computes: join the paths with a newline, then
replace every backslash in the joined string. -/
def joinThenSlash (paths : List Str) : Str :=
  (List.intercalate [newline] paths).map slashify

/-- Modelled from the spec: replacement happens in each path first
(backslashes are replaced in every resulting path before joining), and the
already-normalized paths are then joined with newlines. -/
def slashThenJoin (paths : List Str) : Str :=
  List.intercalate [newline] (paths.map (List.map slashify))

end GlobFiles

namespace GenerateEntitySchema

/-- The file system visible to the script: each path either holds a file with
the given text content or holds no file.  Paths are compared as strings: two
paths name the same file exactly when they are equal. -/
abbrev FS := String → Option String

/-- Writing a file: the path now holds exactly the given content, every other
path is untouched.  Used both for the truncating write of the copy step and,
with the previous content prefixed, for the append-mode writes. -/
def FS.write (fs : FS) (p c : String) : FS := fun q => if q = p then some c else fs q

/-- Failure modes of a run: a usage error from `argparse` for a missing
required flag, a file-not-found exception from opening a nonexistent file
for reading, and the same-file error `shutil.copyfile` raises when source
and destination coincide. -/
inductive RunErr where
  | usage
  | notFound (path : String)
  | sameFile
  deriving DecidableEq

/-- The command line: which of the four flags were supplied, and with which
values.  The script declares each of them with `required=True`. -/
structure Cli where
  infile : Option String
  appendfile : Option String
  outfile : Option String
  identifier : Option String

/-- Text produced by the template on line 26 of the script: the identifier is
substituted verbatim for the `%s` placeholder between the two literal double
quotes, with no escaping and no validation of its characters. -/
def fileIdentifierLine (identifier : String) : String :=
  "file_identifier \"" ++ identifier ++ "\";"

/-- Embedding of `shutil.copyfile(src, dst)` as called on line 21 of the
script: when `src` does not exist, opening it raises a file-not-found
exception before the destination is touched; when `src` and `dst` name the
same existing file, `shutil` raises its same-file error; otherwise `dst` is
created or truncated and receives exactly the content of `src`. -/
def copyfile (fs : FS) (src dst : String) : Except RunErr FS :=
  match fs src with
  | none => .error (.notFound src)
  | some content =>
    if src = dst then .error .sameFile
    else .ok (fs.write dst content)

/-- Embedding of `main()` of `src/lullaby/tools/generate_entity_schema.py`.
When a required flag is missing, `argparse` reports a usage error before any
file is touched.  Otherwise the script copies the input file to the output
path, reads the append file in full (`txt`), and opens the output file in
append mode, writing `txt` and then the `file_identifier` line after the
output file's current content (append mode would create the file when
absent, hence the default of the empty string).  The result pairs the final
file system with `none` on success or with the error that aborted the run;
on an abort the file system reflects every write already performed — the
script has no rollback. -/
def main (fs : FS) (cli : Cli) : FS × Option RunErr :=
  match cli.infile, cli.appendfile, cli.outfile, cli.identifier with
  | some infile, some appendfile, some outfile, some identifier =>
    match copyfile fs infile outfile with
    | .error e => (fs, some e)
    | .ok fs1 =>
      match fs1 appendfile with
      | none => (fs1, some (.notFound appendfile))
      | some txt =>
        (fs1.write outfile (((fs1 outfile).getD "") ++ txt ++ fileIdentifierLine identifier),
          none)
  | _, _, _, _ => (fs, some .usage)

/-- Exit status of the process: `0` on success, `2` when `argparse` rejects
the command line, `1` for an uncaught exception. -/
def exitCode : Option RunErr → Nat
  | none => 0
  | some .usage => 2
  | some _ => 1

/-- A file system with an input component schema at `component.fbs` and an
entity schema at `entity.fbs`, with distinct contents. -/
def fsAlias : FS := fun q =>
  if q = "component.fbs" then some "A" else
  if q = "entity.fbs" then some "B" else none

/-- A file system holding only an input file at `in.fbs`. -/
def fsOneIn : FS := fun q => if q = "in.fbs" then some "A" else none

/-- A file system with an input file at `in.fbs` and an append file at
`ap.fbs`. -/
def fsPair : FS := fun q =>
  if q = "in.fbs" then some "A" else if q = "ap.fbs" then some "B" else none

/-- A file system with an input file at `schema.fbs` and a second file at
`shared.fbs`, the latter to be named both as append file and as output
file. -/
def fsShared : FS := fun q =>
  if q = "schema.fbs" then some "A" else if q = "shared.fbs" then some "B" else none

end GenerateEntitySchema

namespace GlobFiles

/-- Accumulating the matches of each pattern with `files.extend` builds the
concatenation, in argument order, of the match lists of all patterns. -/
theorem foldl_extend_eq (glob : Str → List Str) (pats : List Str) (acc : List Str) :
    pats.foldl (fun fs pattern => fs ++ glob pattern) acc =
      acc ++ (pats.map glob).flatten := by
  induction pats generalizing acc with
  | nil => simp
  | cons p ps ih =>
    simp only [List.foldl_cons, List.map_cons, List.flatten_cons, ih, List.append_assoc]

/-- Mapping a character translation over an intercalation translates the
separator and each chunk. -/
theorem map_intercalate (f : Char → Char) (sep : Str) (L : List Str) :
    (List.intercalate sep L).map f =
      List.intercalate (sep.map f) (L.map (List.map f)) := by
  induction L with
  | nil => rfl
  | cons l ls ih =>
    cases ls with
    | nil => simp [List.intercalate]
    | cons l2 ls2 =>
      simp only [List.intercalate, List.intersperse_cons_cons, List.flatten_cons,
        List.map_append, List.map_cons] at ih ⊢
      simp [ih]

/-- A slashified character is never a backslash. -/
theorem slashify_ne_backslash (c : Char) : slashify c ≠ backslash := by
  unfold slashify
  split
  · decide
  · next h => exact h

/-- Claim C2 — for every glob facility and argument vector, the printed
string is the newline-joined concatenation, in argument order, of the match
lists of the patterns `argv[1:]`, each resulting path with its backslashes
replaced by forward slashes; no backslash character appears in the printed
string, and the process exits with status `0`.  (Duplicates are kept: the
matches are concatenated as-is, never deduplicated.) -/
theorem globFiles_main_spec (glob : Str → List Str) (argv : List Str) :
    (main glob argv).1 =
      List.intercalate [newline]
        ((((argv.drop 1).map glob).flatten).map (List.map slashify)) ∧
    backslash ∉ (main glob argv).1 ∧
    (main glob argv).2 = 0 := by
  refine ⟨?_, ?_, rfl⟩
  · simp only [main, foldl_extend_eq, List.nil_append, map_intercalate]
    rfl
  · simp only [main]
    intro hmem
    obtain ⟨c, -, hc⟩ := List.mem_map.mp hmem
    exact slashify_ne_backslash c hc

/-- Claim C6 — with no command-line argument beyond the program name, the
printed string is empty and the exit status is `0`. -/
theorem globFiles_main_empty (glob : Str → List Str) (prog : Str) :
    main glob [prog] = ([], 0) := rfl

/-- Claim C7 — a pattern matching nothing is not an error: it contributes
zero paths, so deleting it from the argument vector leaves the output
unchanged; and when every pattern matches nothing the printed string is
empty with exit status `0`. -/
theorem globFiles_empty_matches (glob : Str → List Str) (prog p : Str)
    (pats1 pats2 : List Str) (argv : List Str)
    (hp : glob p = []) (hall : ∀ q ∈ argv.drop 1, glob q = []) :
    main glob (prog :: pats1 ++ p :: pats2) = main glob (prog :: pats1 ++ pats2) ∧
    main glob argv = ([], 0) := by
  constructor
  · simp only [main, List.cons_append, List.drop_one, List.tail_cons, foldl_extend_eq,
      List.map_append, List.map_cons, List.flatten_append, List.flatten_cons, hp,
      List.nil_append]
  · have hflat : ((argv.drop 1).map glob).flatten = [] :=
      List.flatten_eq_nil_iff.mpr (by
        intro l hl
        obtain ⟨q, hq, rfl⟩ := List.mem_map.mp hl
        exact hall q hq)
    simp only [main, foldl_extend_eq, List.nil_append, hflat]
    rfl

/-- Concrete run of `globFiles_empty_matches`: a single pattern that matches
no file yields the empty output with exit status `0`, and dropping it
changes nothing. -/
theorem globFiles_empty_matches_witness :
    main (fun _ => []) ("prog".toList :: ["a".toList] ++ "x".toList :: []) =
      main (fun _ => []) ("prog".toList :: ["a".toList] ++ []) ∧
    main (fun _ => []) ["prog".toList, "x".toList] = ([], 0) :=
  globFiles_empty_matches (fun _ => []) "prog".toList "x".toList ["a".toList] []
    ["prog".toList, "x".toList] rfl (by intro q _; rfl)

/-- Claim C9 — replacing backslashes after newline-joining (the code) equals
newline-joining the individually replaced paths (the spec), for every list
of path strings, because the newline separator contains no backslash. -/
theorem joinThenSlash_eq_slashThenJoin (paths : List Str) :
    joinThenSlash paths = slashThenJoin paths := by
  unfold joinThenSlash slashThenJoin
  rw [map_intercalate]
  rfl

end GlobFiles

namespace GenerateEntitySchema

/-- Reading back the path just written yields the written content. -/
theorem FS.write_self (fs : FS) (p c : String) : fs.write p c p = some c := by
  simp [FS.write]

/-- Reading any other path after a write yields what was there before. -/
theorem FS.write_other (fs : FS) (p c q : String) (h : q ≠ p) :
    fs.write p c q = fs q := by
  simp [FS.write, h]

/-- A second write to the same path supersedes the first. -/
theorem FS.write_write (fs : FS) (p a b : String) :
    (fs.write p a).write p b = fs.write p b := by
  funext q
  by_cases h : q = p <;> simp [FS.write, h]

/-- Copying succeeds onto a distinct destination and overwrites it with the
source content. -/
theorem copyfile_ok (fs : FS) (src dst content : String) (h : fs src = some content)
    (hne : src ≠ dst) : copyfile fs src dst = .ok (fs.write dst content) := by
  unfold copyfile
  rw [h]
  simp [hne]

/-- Copying from a nonexistent source fails with a file-not-found error. -/
theorem copyfile_missing (fs : FS) (src dst : String) (h : fs src = none) :
    copyfile fs src dst = .error (.notFound src) := by
  unfold copyfile
  rw [h]

/-- Forward computation of a complete run: when the input file holds `ic`,
the input path differs from the output path, and after the copy the append
path holds `txt`, the run succeeds and the output file holds the copied
content, the appended text and the identifier line. -/
theorem main_run (fs : FS) (infile appendfile outfile identifier ic txt : String)
    (hi : fs infile = some ic) (hio : infile ≠ outfile)
    (hx : FS.write fs outfile ic appendfile = some txt) :
    main fs ⟨some infile, some appendfile, some outfile, some identifier⟩ =
      (fs.write outfile (ic ++ txt ++ fileIdentifierLine identifier), none) := by
  simp only [main, copyfile_ok fs infile outfile ic hi hio, hx, FS.write_self,
    Option.getD_some, FS.write_write]

/-- Inversion of a successful run: it can only have gone through the copy of
an existing input file to a distinct output path and a successful read of
the append path, and the final file system is the initial one with the
output path overwritten. -/
theorem main_ok_inv (fs fsOut : FS) (infile appendfile outfile identifier : String)
    (h : main fs ⟨some infile, some appendfile, some outfile, some identifier⟩ =
      (fsOut, none)) :
    ∃ ic txt, fs infile = some ic ∧ infile ≠ outfile ∧
      FS.write fs outfile ic appendfile = some txt ∧
      fsOut = fs.write outfile (ic ++ txt ++ fileIdentifierLine identifier) := by
  simp only [main] at h
  unfold copyfile at h
  cases hfi : fs infile with
  | none =>
    simp only [hfi] at h
    exact absurd (Prod.ext_iff.mp h).2 (by simp)
  | some ic =>
    simp only [hfi] at h
    by_cases hio : infile = outfile
    · simp only [if_pos hio] at h
      exact absurd (Prod.ext_iff.mp h).2 (by simp)
    · simp only [if_neg hio] at h
      cases hfx : FS.write fs outfile ic appendfile with
      | none =>
        simp only [hfx] at h
        exact absurd (Prod.ext_iff.mp h).2 (by simp)
      | some txt =>
        simp only [hfx, FS.write_self, Option.getD_some, FS.write_write] at h
        exact ⟨ic, txt, rfl, hio, hfx, (Prod.ext_iff.mp h).1.symm⟩

/-- Claim C1, counterexample — a run in which all four arguments are
supplied, both the input file and the append file exist and are readable,
the output path is writable, and the output path happens to equal the
append path: the run succeeds, yet the output file holds two copies of the
input content before the identifier line, not the input content followed by
the append file's original content. -/
theorem entity_output_content_counterexample :
    (main fsAlias
        ⟨some "component.fbs", some "entity.fbs", some "entity.fbs", some "LULL"⟩).2 =
      none ∧
    (main fsAlias
        ⟨some "component.fbs", some "entity.fbs", some "entity.fbs", some "LULL"⟩).1
        "entity.fbs" ≠
      some ("A" ++ "B" ++ fileIdentifierLine "LULL") := by
  constructor
  · rfl
  · decide

/-- Claim C1, amended — for every run in which the four arguments are
supplied, the input and append files exist and are readable, and the output
path is distinct from the input path (as success already requires) and from
the append path, the run succeeds and the output file's content is exactly
the input content, then the append content, then the file-identifier line
with the caller-supplied identifier inserted verbatim (any string, no
escaping, no validation) and nothing after the closing semicolon. -/
theorem entity_output_content (fs : FS) (infile appendfile outfile identifier ic ac : String)
    (hi : fs infile = some ic) (ha : fs appendfile = some ac)
    (hio : infile ≠ outfile) (hao : appendfile ≠ outfile) :
    main fs ⟨some infile, some appendfile, some outfile, some identifier⟩ =
      (fs.write outfile (ic ++ ac ++ fileIdentifierLine identifier), none) ∧
    (fs.write outfile (ic ++ ac ++ fileIdentifierLine identifier)) outfile =
      some (ic ++ ac ++ fileIdentifierLine identifier) := by
  have hx : FS.write fs outfile ic appendfile = some ac := by
    rw [FS.write_other _ _ _ _ hao]
    exact ha
  exact ⟨main_run fs infile appendfile outfile identifier ic ac hi hio hx,
    FS.write_self _ _ _⟩

/-- Concrete run of `entity_output_content`: distinct paths, output holds
input + append + identifier line. -/
theorem entity_output_content_witness :
    main fsAlias ⟨some "component.fbs", some "entity.fbs", some "out.fbs", some "LULL"⟩ =
      (fsAlias.write "out.fbs" ("A" ++ "B" ++ fileIdentifierLine "LULL"), none) ∧
    (fsAlias.write "out.fbs" ("A" ++ "B" ++ fileIdentifierLine "LULL")) "out.fbs" =
      some ("A" ++ "B" ++ fileIdentifierLine "LULL") :=
  entity_output_content fsAlias "component.fbs" "entity.fbs" "out.fbs" "LULL" "A" "B"
    (by decide) (by decide) (by decide) (by decide)

/-- Claim C3 — when any of the four required flags is missing, the run stops
with an argparse usage error and nonzero exit status before any file
operation: the file system is returned exactly as it was, so no output file
is created or modified. -/
theorem entity_missing_flag (fs : FS) (cli : Cli)
    (h : cli.infile = none ∨ cli.appendfile = none ∨ cli.outfile = none ∨
      cli.identifier = none) :
    main fs cli = (fs, some RunErr.usage) ∧ exitCode (main fs cli).2 ≠ 0 := by
  obtain ⟨i, x, o, d⟩ := cli
  have hmain : main fs ⟨i, x, o, d⟩ = (fs, some RunErr.usage) := by
    cases i <;> cases x <;> cases o <;> cases d <;> simp_all [main]
  refine ⟨hmain, ?_⟩
  rw [hmain]
  show exitCode (some RunErr.usage) ≠ 0
  decide

/-- Concrete run of `entity_missing_flag`: the input-file flag missing, both
other files present, and nothing on the file system changes. -/
theorem entity_missing_flag_witness :
    main fsPair ⟨none, some "ap.fbs", some "out.fbs", some "ID"⟩ =
      (fsPair, some RunErr.usage) ∧
    exitCode (main fsPair ⟨none, some "ap.fbs", some "out.fbs", some "ID"⟩).2 ≠ 0 :=
  entity_missing_flag fsPair ⟨none, some "ap.fbs", some "out.fbs", some "ID"⟩
    (Or.inl rfl)

/-- Claim C4, counterexample — the append path equal to the output path and
holding no file before the run: the copy step creates a file at that path,
the read of the append file then finds the freshly copied content, and the
run succeeds with exit status `0` — no file-not-found failure, contrary to
the claim that a missing append file always makes the run fail. -/
theorem entity_no_rollback_counterexample :
    fsOneIn "out.fbs" = none ∧
    (main fsOneIn ⟨some "in.fbs", some "out.fbs", some "out.fbs", some "ID"⟩).2 =
      none ∧
    exitCode
      (main fsOneIn ⟨some "in.fbs", some "out.fbs", some "out.fbs", some "ID"⟩).2 =
      0 := by
  refine ⟨rfl, rfl, rfl⟩

/-- Claim C4, amended — a missing input file aborts the run with a
file-not-found error and nonzero exit status with nothing written; a
missing append file whose path is distinct from the output path (the input
path also distinct from the output path, as reaching the append step
requires) aborts the run with a file-not-found error and nonzero exit
status after the copy, and nothing is rolled back: the output file is left
in place holding the copied input content. -/
theorem entity_no_rollback (fs : FS) (infile appendfile outfile identifier : String) :
    (fs infile = none →
      main fs ⟨some infile, some appendfile, some outfile, some identifier⟩ =
        (fs, some (RunErr.notFound infile)) ∧
      exitCode (some (RunErr.notFound infile)) ≠ 0) ∧
    (∀ ic, fs infile = some ic → infile ≠ outfile → appendfile ≠ outfile →
      fs appendfile = none →
      main fs ⟨some infile, some appendfile, some outfile, some identifier⟩ =
        (fs.write outfile ic, some (RunErr.notFound appendfile)) ∧
      (fs.write outfile ic) outfile = some ic ∧
      exitCode (some (RunErr.notFound appendfile)) ≠ 0) := by
  constructor
  · intro h
    refine ⟨?_, by simp [exitCode]⟩
    simp only [main, copyfile_missing fs infile outfile h]
  · intro ic hi hio hxo hx
    have hnone : FS.write fs outfile ic appendfile = none := by
      rw [FS.write_other _ _ _ _ hxo]
      exact hx
    refine ⟨?_, FS.write_self _ _ _, by simp [exitCode]⟩
    simp only [main, copyfile_ok fs infile outfile ic hi hio, hnone]

/-- Concrete runs of `entity_no_rollback`: a missing input file leaves the
file system untouched; a missing append file leaves the copied input behind
at the output path. -/
theorem entity_no_rollback_witness :
    (main fsOneIn ⟨some "missing.fbs", some "ap.fbs", some "out.fbs", some "ID"⟩ =
      (fsOneIn, some (RunErr.notFound "missing.fbs")) ∧
      exitCode (some (RunErr.notFound "missing.fbs")) ≠ 0) ∧
    (main fsOneIn ⟨some "in.fbs", some "ap.fbs", some "out.fbs", some "ID"⟩ =
      (fsOneIn.write "out.fbs" "A", some (RunErr.notFound "ap.fbs")) ∧
      (fsOneIn.write "out.fbs" "A") "out.fbs" = some "A" ∧
      exitCode (some (RunErr.notFound "ap.fbs")) ≠ 0) :=
  ⟨(entity_no_rollback fsOneIn "missing.fbs" "ap.fbs" "out.fbs" "ID").1 (by decide),
   (entity_no_rollback fsOneIn "in.fbs" "ap.fbs" "out.fbs" "ID").2 "A" (by decide)
     (by decide) (by decide) (by decide)⟩

/-- Claim C5 — determinism and overwrite: when a run succeeds, running the
script again with the same four arguments on the resulting file system
succeeds as well and leaves a byte-identical output file; the output file
left by the first run is overwritten without warning, neither appended to
nor rejected. -/
theorem entity_idempotent (fs fs1 : FS) (infile appendfile outfile identifier : String)
    (h : main fs ⟨some infile, some appendfile, some outfile, some identifier⟩ =
      (fs1, none)) :
    ∃ fs2, main fs1 ⟨some infile, some appendfile, some outfile, some identifier⟩ =
        (fs2, none) ∧ fs2 outfile = fs1 outfile ∧ fs1 outfile ≠ none := by
  obtain ⟨ic, txt, hi, hio, hx, rfl⟩ :=
    main_ok_inv fs fs1 infile appendfile outfile identifier h
  have hi2 : fs.write outfile (ic ++ txt ++ fileIdentifierLine identifier) infile =
      some ic := by
    rw [FS.write_other _ _ _ _ hio]
    exact hi
  have hx2 : FS.write (fs.write outfile (ic ++ txt ++ fileIdentifierLine identifier))
      outfile ic appendfile = some txt := by
    rw [FS.write_write]
    exact hx
  refine ⟨_, main_run _ infile appendfile outfile identifier ic txt hi2 hio hx2,
    ?_, ?_⟩
  · rw [FS.write_write, FS.write_self]
  · rw [FS.write_self]
    simp

/-- Concrete run of `entity_idempotent`: the second run over the output of a
first successful run reproduces the same output file. -/
theorem entity_idempotent_witness :
    ∃ fs2, main (fsPair.write "out.fbs" ("A" ++ "B" ++ fileIdentifierLine "ID"))
        ⟨some "in.fbs", some "ap.fbs", some "out.fbs", some "ID"⟩ = (fs2, none) ∧
      fs2 "out.fbs" =
        (fsPair.write "out.fbs" ("A" ++ "B" ++ fileIdentifierLine "ID")) "out.fbs" ∧
      (fsPair.write "out.fbs" ("A" ++ "B" ++ fileIdentifierLine "ID")) "out.fbs" ≠
        none :=
  entity_idempotent fsPair _ "in.fbs" "ap.fbs" "out.fbs" "ID"
    (main_run fsPair "in.fbs" "ap.fbs" "out.fbs" "ID" "A" "B" (by decide) (by decide)
      (by decide))

/-- Claim C8 — frame property: a successful run whose output path differs
from the input path and from the append path changes no file other than the
one at the output path; in particular the input file and the append file
are exactly as before the run. -/
theorem entity_frame (fs fs1 : FS) (infile appendfile outfile identifier : String)
    (hoi : outfile ≠ infile) (hox : outfile ≠ appendfile)
    (h : main fs ⟨some infile, some appendfile, some outfile, some identifier⟩ =
      (fs1, none)) :
    fs1 infile = fs infile ∧ fs1 appendfile = fs appendfile ∧
      ∀ q, q ≠ outfile → fs1 q = fs q := by
  obtain ⟨ic, txt, -, -, -, rfl⟩ :=
    main_ok_inv fs fs1 infile appendfile outfile identifier h
  exact ⟨FS.write_other _ _ _ _ (Ne.symm hoi), FS.write_other _ _ _ _ (Ne.symm hox),
    fun q hq => FS.write_other _ _ _ _ hq⟩

/-- Concrete run of `entity_frame`: after a successful run, the input file
and the append file still hold their original contents. -/
theorem entity_frame_witness :
    (main fsPair ⟨some "in.fbs", some "ap.fbs", some "out.fbs", some "ID"⟩).1 "in.fbs" =
      fsPair "in.fbs" ∧
    (main fsPair ⟨some "in.fbs", some "ap.fbs", some "out.fbs", some "ID"⟩).1 "ap.fbs" =
      fsPair "ap.fbs" ∧
    ∀ q, q ≠ "out.fbs" →
      (main fsPair ⟨some "in.fbs", some "ap.fbs", some "out.fbs", some "ID"⟩).1 q =
        fsPair q := by
  have h := main_run fsPair "in.fbs" "ap.fbs" "out.fbs" "ID" "A" "B" (by decide)
    (by decide) (by decide)
  have h2 := entity_frame fsPair _ "in.fbs" "ap.fbs" "out.fbs" "ID" (by decide)
    (by decide) h
  rw [h]
  exact h2

/-- Claim C10 — when the append path and the output path coincide, the copy
to the output path happens before the append file is read, so the appended
text is the copied input content: the run succeeds and the output file holds
input content + input content + identifier line; whenever the original
content of the shared path differs from the input content, that differs
from input content + original append content + identifier line. -/
theorem entity_append_path_is_output (fs : FS) (infile outfile identifier ic : String)
    (hi : fs infile = some ic) (hio : infile ≠ outfile) :
    main fs ⟨some infile, some outfile, some outfile, some identifier⟩ =
      (fs.write outfile (ic ++ ic ++ fileIdentifierLine identifier), none) ∧
    (fs.write outfile (ic ++ ic ++ fileIdentifierLine identifier)) outfile =
      some (ic ++ ic ++ fileIdentifierLine identifier) ∧
    ∀ ac, ac ≠ ic →
      some (ic ++ ic ++ fileIdentifierLine identifier) ≠
        some (ic ++ ac ++ fileIdentifierLine identifier) := by
  refine ⟨main_run fs infile outfile outfile identifier ic ic hi hio
      (FS.write_self _ _ _), FS.write_self _ _ _, ?_⟩
  intro ac hne heq
  apply hne
  have h2 := congrArg String.data (Option.some.inj heq)
  simp only [String.data_append] at h2
  exact String.ext (List.append_cancel_left (List.append_cancel_right h2)).symm

/-- Concrete run of `entity_append_path_is_output`: append path equal to the
output path, the output file ends up holding the input content twice. -/
theorem entity_append_path_is_output_witness :
    main fsShared ⟨some "schema.fbs", some "shared.fbs", some "shared.fbs", some "ID"⟩ =
      (fsShared.write "shared.fbs" ("A" ++ "A" ++ fileIdentifierLine "ID"), none) ∧
    (fsShared.write "shared.fbs" ("A" ++ "A" ++ fileIdentifierLine "ID")) "shared.fbs" =
      some ("A" ++ "A" ++ fileIdentifierLine "ID") ∧
    some ("A" ++ "A" ++ fileIdentifierLine "ID") ≠
      some ("A" ++ "B" ++ fileIdentifierLine "ID") := by
  have h := entity_append_path_is_output fsShared "schema.fbs" "shared.fbs" "ID" "A"
    (by decide) (by decide)
  exact ⟨h.1, h.2.1, h.2.2 "B" (by decide)⟩

end GenerateEntitySchema
